import Mathlib

set_option autoImplicit false

/-
Verification of the time-partitioned document indexing and query layer
(package `elasticsearch`, file `storage/seachindex/elasticsearch/aws-opensearch.go`).

The Go code is shallowly embedded: every engine interaction is abstracted as a
parameter (an oracle giving the engine's answer to each call), and the pure
parts (partition naming, mapping inference, query construction, batching,
error aggregation) are translated directly.
-/

deriving instance DecidableEq for Except

namespace GoSearchIndex

/-! ### Time model

Go `time.Time` values restricted to fixed-offset locations.  `day` is the
civil day in the value's own location, counted from 1970-01-01; `sec` is the
second within that local civil day; `offset` is the location's UTC offset in
seconds.  `time.Time.After` compares absolute instants; `Format("2006.01.02")`
renders the civil date in the value's own location (Go formats in the time's
location, there is no implicit conversion to UTC); `AddDate(0,0,1)` advances
the local civil day by one, keeping the clock time and the location. -/

structure GoTime where
  day : Int
  sec : Nat
  offset : Int
deriving DecidableEq

/-- Absolute instant of a `GoTime`, in seconds since the epoch. -/
def unixSec (t : GoTime) : Int :=
  t.day * 86400 + (t.sec : Int) - t.offset

/-- Calendar day of the instant interpreted in UTC (what the spec says the
partition name should be computed from). -/
def utcDay (t : GoTime) : Int :=
  Int.fdiv (unixSec t) 86400

/-- Embedding of Go `d.AddDate(0, 0, 1)` for fixed-offset locations. -/
def addOneDay (t : GoTime) : GoTime :=
  ⟨t.day + 1, t.sec, t.offset⟩

/-- Civil (year, month, day) of an epoch day number (proleptic Gregorian),
as computed by Go's `Time.Date`. -/
def civilOfDay (z0 : Int) : Int × Int × Int :=
  let z := z0 + 719468
  let era := (if 0 ≤ z then z else z - 146096) / 146097
  let doe := z - era * 146097
  let yoe := (doe - doe / 1460 + doe / 36524 - doe / 146096) / 365
  let y := yoe + era * 400
  let doy := doe - (365 * yoe + yoe / 4 - yoe / 100)
  let mp := (5 * doy + 2) / 153
  let d := doy - (153 * mp + 2) / 5 + 1
  let m := mp + (if mp < 10 then 3 else (-9))
  (y + (if m ≤ 2 then 1 else 0), m, d)

/-- Zero-pad a month or day number to two digits. -/
def pad2 (n : Int) : String :=
  if n < 10 then "0" ++ toString n else toString n

/-- Zero-pad a year number to four digits. -/
def pad4 (n : Int) : String :=
  if n < 10 then "000" ++ toString n
  else if n < 100 then "00" ++ toString n
  else if n < 1000 then "0" ++ toString n
  else toString n

/-- Rendering of the civil date of epoch day `day` in Go's layout
`"2006.01.02"` (that is, `YYYY.MM.DD`). -/
def goFormatDay (day : Int) : String :=
  let c := civilOfDay day
  pad4 c.1 ++ "." ++ pad2 c.2.1 ++ "." ++ pad2 c.2.2

/-- Embedding of `getIndexName`:
`fmt.Sprintf("%s-%s", baseIndexName, date.Format("2006.01.02"))`.
Go's `Format` renders the date in the time value's own location, hence the
use of the local civil day `t.day`. -/
def getIndexName (baseIndexName : String) (t : GoTime) : String :=
  baseIndexName ++ "-" ++ goFormatDay t.day

theorem unixSec_addOneDay (t : GoTime) : unixSec (addOneDay t) = unixSec t + 86400 := by
  simp only [unixSec, addOneDay]
  ring

/-- Embedding of the index-name accumulation loop of `SearchDateRange`:
`for d := startDate; !d.After(endDate); d = d.AddDate(0, 0, 1)`
appending `getIndexName(baseIndexName, d)` at each step. -/
def searchDateRangeIndexNames (baseIndexName : String) (d e : GoTime) : List String :=
  if unixSec e < unixSec d then []
  else getIndexName baseIndexName d :: searchDateRangeIndexNames baseIndexName (addOneDay d) e
termination_by (unixSec e - unixSec d + 86400).toNat
decreasing_by
  simp only [unixSec_addOneDay]
  omega

/-- The inclusive run of integers from `a` to `b` (empty when `b < a`). -/
def dayRange (a b : Int) : List Int :=
  (List.range (b + 1 - a).toNat).map (fun i : Nat => a + (i : Int))

theorem dayRange_cons (a b : Int) (h : a ≤ b) :
    dayRange a b = a :: dayRange (a + 1) b := by
  unfold dayRange
  have h1 : (b + 1 - a).toNat = (b + 1 - (a + 1)).toNat + 1 := by omega
  rw [h1, List.range_succ_eq_map, List.map_cons, List.map_map]
  have h2 : ((fun i : Nat => a + (i : Int)) ∘ Nat.succ) = fun i : Nat => (a + 1) + (i : Int) := by
    funext i
    simp only [Function.comp, Nat.succ_eq_add_one]
    push_cast
    ring
  simp [h2]

theorem dayRange_single (a b : Int) (h : a = b) : dayRange a b = [a] := by
  subst h
  unfold dayRange
  have h1 : (a + 1 - a).toNat = 1 := by omega
  rw [h1]
  simp [List.range_succ]

/-- C4: for every dataset and every pair of dates `start ≤ end` (same clock
time and location, in particular both at midnight), `SearchDateRange` targets
exactly the ordered sequence of one daily partition name per calendar day
from `start` through `end` inclusive — never a day before `start` or after
`end`. -/
theorem searchDateRange_targets_exact_days (base : String) (s e : GoTime)
    (hoff : s.offset = e.offset) (hsec : s.sec = e.sec) (hle : s.day ≤ e.day) :
    searchDateRangeIndexNames base s e
      = (dayRange s.day e.day).map (fun z => base ++ "-" ++ goFormatDay z) := by
  have key : ∀ n (s : GoTime), s.offset = e.offset → s.sec = e.sec → s.day ≤ e.day →
      (e.day - s.day).toNat = n →
      searchDateRangeIndexNames base s e
        = (dayRange s.day e.day).map (fun z => base ++ "-" ++ goFormatDay z) := by
    intro n
    induction n with
    | zero =>
      intro s h1 h2 h3 h4
      have hday : s.day = e.day := by omega
      have hcond : ¬ unixSec e < unixSec s := by
        simp only [unixSec]
        omega
      rw [searchDateRangeIndexNames, if_neg hcond]
      have hcond2 : unixSec e < unixSec (addOneDay s) := by
        simp only [unixSec, addOneDay]
        omega
      rw [searchDateRangeIndexNames, if_pos hcond2]
      rw [dayRange_single _ _ hday]
      simp [getIndexName]
    | succ n ih =>
      intro s h1 h2 h3 h4
      have hcond : ¬ unixSec e < unixSec s := by
        simp only [unixSec]
        omega
      rw [searchDateRangeIndexNames, if_neg hcond]
      rw [dayRange_cons _ _ h3, List.map_cons]
      have hrec := ih (addOneDay s) h1 h2 (by simp only [addOneDay]; omega)
        (by simp only [addOneDay]; omega)
      simp only [addOneDay] at hrec ⊢
      rw [hrec]
      rfl
  exact key (e.day - s.day).toNat s hoff hsec hle rfl

/-- Midnight UTC on 2024-01-01 (epoch day 19723). -/
def day20240101 : GoTime := ⟨19723, 0, 0⟩

/-- Midnight UTC on 2024-01-03 (epoch day 19725). -/
def day20240103 : GoTime := ⟨19725, 0, 0⟩

/-- Witness for C4: the range 2024-01-01 .. 2024-01-03 satisfies the
hypotheses of `searchDateRange_targets_exact_days`, so exactly the three
partitions for those days are targeted. -/
theorem searchDateRange_targets_exact_days_witness :
    (day20240101.offset = day20240103.offset ∧ day20240101.sec = day20240103.sec ∧
      day20240101.day ≤ day20240103.day) ∧
    searchDateRangeIndexNames ("treatments") day20240101 day20240103
      = (dayRange day20240101.day day20240103.day).map
          (fun z => ("treatments") ++ "-" ++ goFormatDay z) :=
  ⟨⟨rfl, rfl, by decide⟩,
    searchDateRange_targets_exact_days ("treatments") day20240101 day20240103 rfl rfl
      (by decide)⟩

/-! ### C5: partition naming -/

/-- A timestamp in a fixed `+01:00` zone: local civil day 19724 (2024-01-02),
local clock 00:30, i.e. the UTC instant 2024-01-01 23:30. -/
def tzTime : GoTime := ⟨19724, 1800, 3600⟩

/-- Counterexample to C5: the partition name is rendered from the calendar
day of the timestamp's own location, not from the UTC calendar day, so for a
timestamp whose local day differs from its UTC day the claimed UTC format
does not hold. -/
theorem partitionName_not_utc :
    getIndexName ("treatments") tzTime
      ≠ ("treatments") ++ "-" ++ goFormatDay (utcDay tzTime) := by
  decide

/-- C5 (amended): `getIndexName` is pure, total and deterministic, its result
is always the dataset, a hyphen, then the calendar day of `t` formatted
`YYYY.MM.DD` — the day being taken in the timestamp's own location: the output
depends only on the dataset and the local calendar day. -/
theorem partitionName_pure_local_day (base : String) (t u : GoTime) (h : t.day = u.day) :
    getIndexName base t = getIndexName base u ∧
    getIndexName base t = base ++ "-" ++ goFormatDay t.day :=
  ⟨by simp [getIndexName, h], rfl⟩

/-- Witness for C5 (amended): two distinct clock times of the same local day
give the same partition name. -/
theorem partitionName_pure_local_day_witness :
    (tzTime.day = (⟨19724, 0, 3600⟩ : GoTime).day) ∧
    (getIndexName ("treatments") tzTime = getIndexName ("treatments") ⟨19724, 0, 3600⟩ ∧
      getIndexName ("treatments") tzTime = ("treatments") ++ "-" ++ goFormatDay tzTime.day) :=
  ⟨rfl, partitionName_pure_local_day ("treatments") tzTime ⟨19724, 0, 3600⟩ rfl⟩

/-! ### Schema inference: `generateMappings` and `getOpenSearchType` -/

/-- Go runtime kind of a field's type, as far as `getOpenSearchType` inspects
it: the primitive kinds it switches on, struct (with the flag of being
exactly `time.Time`), slice (with the element's kind), and the remaining
composite kinds. -/
inductive GoKind where
  | boolK
  | intK
  | int8K
  | int16K
  | int32K
  | int64K
  | uintK
  | uint8K
  | uint16K
  | uint32K
  | uint64K
  | float32K
  | float64K
  | stringK
  | structK (isTimeTime : Bool)
  | sliceK (elem : GoKind)
  | mapK
  | interfaceK
deriving DecidableEq

/-- Embedding of `getOpenSearchType`: the switch over `reflect.Kind`, where a
non-`time.Time` struct and a slice of non-strings fall through to the final
`return "text"`. -/
def getOpenSearchType : GoKind → String
  | .boolK => "boolean"
  | .intK | .int8K | .int16K | .int32K | .int64K
  | .uintK | .uint8K | .uint16K | .uint32K | .uint64K => "long"
  | .float32K | .float64K => "double"
  | .stringK => "keyword"
  | .structK true => "date"
  | .structK false => "text"
  | .sliceK .stringK => "keyword"
  | .sliceK _ => "text"
  | .mapK => "text"
  | .interfaceK => "text"

/-- Engine field type as the spec describes one: either a single engine type,
or the composite "text with an exact-match keyword sub-field". -/
inductive FieldSpec where
  | simple (engineType : String)
  | textWithKeywordSub
deriving DecidableEq

/-- Modelled from the spec: the field-type rules of the Schema Inferencer as
the spec states them, in their stated order — boolean, any integer width,
any floating width, timestamp, string (full-text with exact-match
sub-field), sequence of strings, any other composite — for comparison with
the code's `getOpenSearchType`. -/
def specFieldType : GoKind → FieldSpec
  | .boolK => .simple ("boolean")
  | .intK | .int8K | .int16K | .int32K | .int64K
  | .uintK | .uint8K | .uint16K | .uint32K | .uint64K => .simple ("long")
  | .float32K | .float64K => .simple ("double")
  | .structK true => .simple ("date")
  | .stringK => .textWithKeywordSub
  | .sliceK .stringK => .simple ("keyword")
  | _ => .simple ("text")

/-- The field-type rules of C3 as amended: identical to the spec's rules
except that a string maps to the exact-match `keyword` type (no full-text
sub-field). -/
def amendedFieldType : GoKind → String
  | .boolK => "boolean"
  | .intK | .int8K | .int16K | .int32K | .int64K
  | .uintK | .uint8K | .uint16K | .uint32K | .uint64K => "long"
  | .float32K | .float64K => "double"
  | .structK true => "date"
  | .stringK => "keyword"
  | .sliceK .stringK => "keyword"
  | _ => "text"

theorem getOpenSearchType_eq_amended (k : GoKind) :
    getOpenSearchType k = amendedFieldType k := by
  cases k with
  | structK b => cases b <;> rfl
  | sliceK e => cases e <;> rfl
  | _ => rfl

/-- A struct field as `generateMappings` sees it: declared name, `json` tag
(empty when absent), and the field type's kind. -/
structure GoField where
  name : String
  jsonTag : String
  kind : GoKind
deriving DecidableEq

/-- Shape of a record value passed to the schema inferencer. -/
inductive RecordShape where
  | structS (fields : List GoField)
  | ptrS (inner : RecordShape)
  | otherS
deriving DecidableEq

/-- One level of pointer indirection, as the single
`if v.Kind() == reflect.Ptr` / `v = v.Elem()` step. -/
def derefOnce : RecordShape → RecordShape
  | .ptrS r => r
  | r => r

/-- Field-name resolution: the `json` tag when declared, otherwise the
lower-cased field name. -/
def resolveFieldName (f : GoField) : String :=
  if f.jsonTag = "" then f.name.toLower else f.jsonTag

/-- Embedding of `generateMappings`: a non-struct record (after one pointer
dereference) is rejected; otherwise every field's resolved name is bound to
its engine type. The Go code stores the bindings in a map; the embedding
keeps them in field order. -/
def generateMappings (r : RecordShape) : Except String (List (String × String)) :=
  match derefOnce r with
  | .structS fields =>
      .ok (fields.map (fun f => (resolveFieldName f, getOpenSearchType f.kind)))
  | _ => .error ("record must be a struct")

/-- A record with a single string field, carrying a `json` tag. -/
def nameRecord : RecordShape :=
  .structS [⟨"Name", "name", .stringK⟩]

/-- Counterexample to C3: the code maps a string field to the plain
exact-match `keyword` type, while the claim requires a type supporting both
full-text and exact-match access (text with an exact-match sub-field). -/
theorem inferMapping_string_counterexample :
    generateMappings nameRecord = Except.ok [(("name"), ("keyword"))] ∧
    FieldSpec.simple ("keyword") ≠ specFieldType GoKind.stringK := by
  decide

/-- C3 (amended): for every record whose shape is a (possibly pointer-to-)
struct, `generateMappings` assigns each field the engine type given by the
spec's ordered rules amended at strings: boolean → boolean, any integer
width → long, any floating width → double, timestamp → date, string →
keyword, sequence of strings → keyword, any other composite → text. -/
theorem inferMapping_field_types (r : RecordShape) (fields : List GoField)
    (hr : derefOnce r = .structS fields) (f : GoField) (hf : f ∈ fields) :
    generateMappings r
        = Except.ok (fields.map (fun g => (resolveFieldName g, getOpenSearchType g.kind))) ∧
    (resolveFieldName f, amendedFieldType f.kind)
      ∈ fields.map (fun g => (resolveFieldName g, getOpenSearchType g.kind)) := by
  constructor
  · simp [generateMappings, hr]
  · rw [← getOpenSearchType_eq_amended]
    exact List.mem_map_of_mem _ hf

/-- A pointer to a struct exercising every rule family: string, integer,
boolean (untagged), timestamp and string-sequence fields. -/
def treatmentRecord : RecordShape :=
  .ptrS (.structS
    [⟨"Name", "name", .stringK⟩,
     ⟨"Price", "price", .int64K⟩,
     ⟨"Certified", "", .boolK⟩,
     ⟨"CreatedAt", "createdAt", .structK true⟩,
     ⟨"Tags", "tags", .sliceK .stringK⟩])

/-- Witness for C3 (amended): the untagged boolean field of a concrete
pointer-to-struct record is mapped under its lower-cased name to the boolean
engine type. -/
theorem inferMapping_field_types_witness :
    (derefOnce treatmentRecord
        = RecordShape.structS
            [⟨"Name", "name", GoKind.stringK⟩,
             ⟨"Price", "price", GoKind.int64K⟩,
             ⟨"Certified", "", GoKind.boolK⟩,
             ⟨"CreatedAt", "createdAt", GoKind.structK true⟩,
             ⟨"Tags", "tags", GoKind.sliceK GoKind.stringK⟩] ∧
      (⟨"Certified", "", GoKind.boolK⟩ : GoField)
        ∈ [(⟨"Name", "name", GoKind.stringK⟩ : GoField),
           ⟨"Price", "price", GoKind.int64K⟩,
           ⟨"Certified", "", GoKind.boolK⟩,
           ⟨"CreatedAt", "createdAt", GoKind.structK true⟩,
           ⟨"Tags", "tags", GoKind.sliceK GoKind.stringK⟩]) ∧
    (generateMappings treatmentRecord
        = Except.ok
            ([(⟨"Name", "name", GoKind.stringK⟩ : GoField),
              ⟨"Price", "price", GoKind.int64K⟩,
              ⟨"Certified", "", GoKind.boolK⟩,
              ⟨"CreatedAt", "createdAt", GoKind.structK true⟩,
              ⟨"Tags", "tags", GoKind.sliceK GoKind.stringK⟩].map
              (fun g => (resolveFieldName g, getOpenSearchType g.kind))) ∧
      (resolveFieldName ⟨"Certified", "", GoKind.boolK⟩,
          amendedFieldType GoKind.boolK)
        ∈ [(⟨"Name", "name", GoKind.stringK⟩ : GoField),
           ⟨"Price", "price", GoKind.int64K⟩,
           ⟨"Certified", "", GoKind.boolK⟩,
           ⟨"CreatedAt", "createdAt", GoKind.structK true⟩,
           ⟨"Tags", "tags", GoKind.sliceK GoKind.stringK⟩].map
           (fun g => (resolveFieldName g, getOpenSearchType g.kind))) :=
  ⟨⟨by decide, by decide⟩,
    inferMapping_field_types treatmentRecord _ (by decide) ⟨"Certified", "", GoKind.boolK⟩
      (by decide)⟩

/-! ### Query construction: `buildSearchQuery` -/

/-- Runtime type of a filter value in the `queryParams` map. -/
inductive FilterValue where
  | str (s : String)
  | strList (l : List String)
  | num (n : Int)
  | numPair (lo hi : Int)
  | other
deriving DecidableEq

/-- A query clause of the engine's boolean query DSL. -/
inductive Clause where
  | matchQ (field : String) (value : FilterValue)
  | termsQ (field : String) (values : List String)
  | termQ (field : String) (value : Int)
  | rangeQ (field : String) (lo hi : Int)
deriving DecidableEq

/-- The boolean query `buildSearchQuery` assembles: a `must` list of clauses. -/
structure BoolQuery where
  must : List Clause
deriving DecidableEq

/-- Embedding of `buildSearchQuery`: every entry of `queryParams`, whatever
the runtime type of its value, contributes a `match` clause carrying the raw
value; the construction is total. Go's map iteration order is unspecified;
the embedding takes the entries as a list. -/
def buildSearchQuery (queryParams : List (String × FilterValue)) : BoolQuery :=
  ⟨queryParams.map (fun p => Clause.matchQ p.1 p.2)⟩

/-- Modelled from the spec: the typed filter rules of the Query Engine as the
spec states them — exact string → match, string sequence → terms, numeric →
term, bounded pair → range, otherwise fail — for comparison with the code's
`buildSearchQuery`. -/
def specFilterClause (field : String) : FilterValue → Except String Clause
  | .str s => .ok (.matchQ field (.str s))
  | .strList l => .ok (.termsQ field l)
  | .num n => .ok (.termQ field n)
  | .numPair lo hi => .ok (.rangeQ field lo hi)
  | .other => .error ("UnsupportedFilterError")

/-- Counterexample to C6: a string-sequence filter value produces a `match`
clause, not the `terms` clause the claim requires, and an unsupported filter
value type produces a `match` clause instead of failing. -/
theorem buildSearchQuery_untyped_counterexample :
    (buildSearchQuery [(("tags"), FilterValue.strList ["a"])]).must
        = [Clause.matchQ ("tags") (FilterValue.strList ["a"])] ∧
    specFilterClause ("tags") (FilterValue.strList ["a"])
        = Except.ok (Clause.termsQ ("tags") ["a"]) ∧
    Clause.matchQ ("tags") (FilterValue.strList ["a"]) ≠ Clause.termsQ ("tags") ["a"] ∧
    (buildSearchQuery [(("flag"), FilterValue.other)]).must
        = [Clause.matchQ ("flag") FilterValue.other] := by
  decide

/-- C6 (amended): every filter entry produces a `match` clause carrying the
raw value, regardless of the value's runtime type, and no filter value type
makes the construction fail: the `match` clause for a pair is in the query
exactly when the pair is among the filters. -/
theorem buildSearchQuery_all_match (queryParams : List (String × FilterValue))
    (k : String) (v : FilterValue) :
    Clause.matchQ k v ∈ (buildSearchQuery queryParams).must ↔ (k, v) ∈ queryParams := by
  simp only [buildSearchQuery, List.mem_map]
  constructor
  · rintro ⟨⟨k2, v2⟩, hmem, heq⟩
    cases heq
    exact hmem
  · intro h
    exact ⟨(k, v), h, rfl⟩

/-! ### Template manager: `ensureIndexTemplate` -/

/-- Outcome of one `createIndexTemplate` attempt as `ensureIndexTemplate`
observes it: success (any non-error engine answer, the idempotent recreate
included) or a failure message (mapping generation failure, transport
failure, or an engine error response). -/
inductive TemplateOutcome where
  | success
  | failure (msg : String)
deriving DecidableEq

/-- Result of one `ensureIndexTemplate` call: the completion flag afterwards,
whether `createIndexTemplate` was invoked, and the returned error. -/
structure EnsureResult where
  flagAfter : Bool
  madeCreateCall : Bool
  err : Option String
deriving DecidableEq

/-- Embedding of `ensureIndexTemplate` for one dataset: under the mutex, an
already-set completion flag returns immediately with no creation attempt;
otherwise `createIndexTemplate` runs — a failure is returned with the flag
left unset, a success sets the flag. -/
def ensureIndexTemplate (flag : Bool) (outcome : TemplateOutcome) : EnsureResult :=
  if flag then ⟨true, false, none⟩
  else
    match outcome with
    | .failure m => ⟨false, true, some m⟩
    | .success => ⟨true, true, none⟩

/-- A sequence of `ensureIndexTemplate` calls on one `SearchIndex` instance
for one dataset, threading the completion flag; `outcomes` gives the engine's
answer to each potential creation attempt. -/
def ensureRun (flag : Bool) : List TemplateOutcome → Bool × List EnsureResult
  | [] => (flag, [])
  | o :: os =>
    let r := ensureIndexTemplate flag o
    let rest := ensureRun r.flagAfter os
    (rest.1, r :: rest.2)

/-- A creation call observed as a success: `createIndexTemplate` was invoked
and the call returned no error. -/
def isObservedSuccessCreate (r : EnsureResult) : Bool :=
  r.madeCreateCall && r.err.isNone

theorem ensureRun_flag_set (os : List TemplateOutcome) :
    ensureRun true os = (true, os.map (fun _ => ⟨true, false, none⟩)) := by
  induction os with
  | nil => rfl
  | cons o os ih => simp [ensureRun, ensureIndexTemplate, ih]

theorem ensureIndexTemplate_err_iff_flag (flag : Bool) (o : TemplateOutcome) :
    (ensureIndexTemplate flag o).err = none ↔ (ensureIndexTemplate flag o).flagAfter = true := by
  cases flag <;> cases o <;> simp [ensureIndexTemplate]

theorem ensureRun_countP_unset (os : List TemplateOutcome) :
    (ensureRun false os).2.countP isObservedSuccessCreate ≤ 1 := by
  induction os with
  | nil => simp [ensureRun]
  | cons o os ih =>
    cases o with
    | failure m =>
      simpa [ensureRun, ensureIndexTemplate, isObservedSuccessCreate, List.countP_cons] using ih
    | success =>
      simp [ensureRun, ensureIndexTemplate, ensureRun_flag_set, isObservedSuccessCreate,
        List.countP_cons, List.countP_eq_zero]

theorem ensureRun_after_success (flag : Bool) (os : List TemplateOutcome) :
    ∀ pre r post, (ensureRun flag os).2 = pre ++ r :: post → r.err = none →
      ∀ r2 ∈ post, r2.flagAfter = true ∧ r2.madeCreateCall = false ∧ r2.err = none := by
  induction os generalizing flag with
  | nil =>
    intro pre r post h
    simp [ensureRun] at h
  | cons o os ih =>
    intro pre r post h herr
    rw [show ensureRun flag (o :: os)
        = (let r0 := ensureIndexTemplate flag o
           let rest := ensureRun r0.flagAfter os
           (rest.1, r0 :: rest.2)) from rfl] at h
    simp only at h
    cases pre with
    | nil =>
      simp only [List.nil_append, List.cons.injEq] at h
      obtain ⟨hr, hpost⟩ := h
      subst hr
      have hflag : (ensureIndexTemplate flag o).flagAfter = true :=
        (ensureIndexTemplate_err_iff_flag flag o).mp herr
      rw [hflag] at hpost
      rw [ensureRun_flag_set] at hpost
      intro r2 hr2
      rw [← hpost] at hr2
      simp only at hr2
      obtain ⟨x, _, hx⟩ := List.mem_map.mp hr2
      rw [← hx]
      exact ⟨rfl, rfl, rfl⟩
    | cons p pre2 =>
      simp only [List.cons_append, List.cons.injEq] at h
      exact ih (ensureIndexTemplate flag o).flagAfter pre2 r post h.2 herr

theorem ensureRun_retry_after_failure (flag : Bool) (os : List TemplateOutcome) :
    ∀ pre r post, (ensureRun flag os).2 = pre ++ r :: post → r.err ≠ none →
      r.flagAfter = false ∧ ∀ r2 post2, post = r2 :: post2 → r2.madeCreateCall = true := by
  induction os generalizing flag with
  | nil =>
    intro pre r post h
    simp [ensureRun] at h
  | cons o os ih =>
    intro pre r post h herr
    rw [show ensureRun flag (o :: os)
        = (let r0 := ensureIndexTemplate flag o
           let rest := ensureRun r0.flagAfter os
           (rest.1, r0 :: rest.2)) from rfl] at h
    simp only at h
    cases pre with
    | nil =>
      simp only [List.nil_append, List.cons.injEq] at h
      obtain ⟨hr, hpost⟩ := h
      subst hr
      have hflag : (ensureIndexTemplate flag o).flagAfter = false := by
        cases hf : (ensureIndexTemplate flag o).flagAfter
        · rfl
        · exact absurd ((ensureIndexTemplate_err_iff_flag flag o).mpr hf) herr
      refine ⟨hflag, ?_⟩
      intro r2 post2 hp
      rw [hflag] at hpost
      cases os with
      | nil => rw [← hpost] at hp; simp [ensureRun] at hp
      | cons o2 os2 =>
        rw [← hpost] at hp
        rw [show ensureRun false (o2 :: os2)
            = (let r0 := ensureIndexTemplate false o2
               let rest := ensureRun r0.flagAfter os2
               (rest.1, r0 :: rest.2)) from rfl] at hp
        simp only [List.cons.injEq] at hp
        rw [← hp.1]
        cases o2 <;> rfl
    | cons p pre2 =>
      simp only [List.cons_append, List.cons.injEq] at h
      exact ih (ensureIndexTemplate flag o).flagAfter pre2 r post h.2 herr

/-- C2: starting from an unset completion flag, at most one creation call
across the whole call sequence is observed as a success; after a successful
call every later call returns success immediately without any creation
attempt; and a failed call leaves the flag unset, so the immediately
following call attempts creation again. -/
theorem ensureTemplate_idempotent (os : List TemplateOutcome) :
    ((ensureRun false os).2.countP isObservedSuccessCreate ≤ 1) ∧
    (∀ pre r post, (ensureRun false os).2 = pre ++ r :: post → r.err = none →
      ∀ r2 ∈ post, r2.flagAfter = true ∧ r2.madeCreateCall = false ∧ r2.err = none) ∧
    (∀ pre r post, (ensureRun false os).2 = pre ++ r :: post → r.err ≠ none →
      r.flagAfter = false ∧ ∀ r2 post2, post = r2 :: post2 → r2.madeCreateCall = true) :=
  ⟨ensureRun_countP_unset os, ensureRun_after_success false os,
    ensureRun_retry_after_failure false os⟩

/-- Witness for C2: a failure, then a success, then a third call — the
failed first call leaves the flag unset and the second call retries; after
the successful second call the third is a success without a creation
attempt, and exactly one creation call was observed as a success. -/
theorem ensureTemplate_idempotent_witness :
    ((ensureRun false [TemplateOutcome.failure ("boom"), TemplateOutcome.success,
        TemplateOutcome.success]).2.countP isObservedSuccessCreate ≤ 1) ∧
    (∀ r2 ∈ [(⟨true, false, none⟩ : EnsureResult)],
      r2.flagAfter = true ∧ r2.madeCreateCall = false ∧ r2.err = none) ∧
    ((⟨false, true, some ("boom")⟩ : EnsureResult).flagAfter = false ∧
      ∀ r2 post2,
        [(⟨true, true, none⟩ : EnsureResult), ⟨true, false, none⟩] = r2 :: post2 →
          r2.madeCreateCall = true) :=
  have h := ensureTemplate_idempotent
    [TemplateOutcome.failure ("boom"), TemplateOutcome.success, TemplateOutcome.success]
  ⟨h.1,
    h.2.1 [⟨false, true, some ("boom")⟩] ⟨true, true, none⟩ [⟨true, false, none⟩]
      (by decide) (by decide),
    h.2.2 [] ⟨false, true, some ("boom")⟩ [⟨true, true, none⟩, ⟨true, false, none⟩]
      (by decide) (by decide)⟩

/-! ### C9: the lock discipline of the template manager -/

/-- Events of one `ensureIndexTemplate` call, in program order. -/
inductive TemplateEvent where
  | lockAcquire
  | flagCheck
  | netCreateCall
  | flagSet
  | lockRelease
deriving DecidableEq

/-- Event trace of one `ensureIndexTemplate` call: the mutex is acquired on
entry and, via `defer`, released only at return; the flag check, the
`createIndexTemplate` network call and the flag update all happen in
between. -/
def ensureTemplateTrace (flag : Bool) (outcome : TemplateOutcome) : List TemplateEvent :=
  if flag then [.lockAcquire, .flagCheck, .lockRelease]
  else
    match outcome with
    | .failure _ => [.lockAcquire, .flagCheck, .netCreateCall, .lockRelease]
    | .success => [.lockAcquire, .flagCheck, .netCreateCall, .flagSet, .lockRelease]

/-- The trace holds the lock across the creation network call: an
acquisition, then the network call, then the release, in that order. -/
def lockHeldAcrossNet (tr : List TemplateEvent) : Prop :=
  ∃ i j k : Fin tr.length, i < j ∧ j < k ∧
    tr.get i = .lockAcquire ∧ tr.get j = .netCreateCall ∧ tr.get k = .lockRelease

/-- Counterexample to C9: on the path that creates the template, the mutex
is held across the network call — acquired before it and released only
after it — contradicting the claim that it is never held across that call. -/
theorem ensureTemplate_lock_counterexample :
    lockHeldAcrossNet (ensureTemplateTrace false TemplateOutcome.success) := by
  exact ⟨⟨0, by decide⟩, ⟨2, by decide⟩, ⟨4, by decide⟩, by decide, by decide, by decide,
    by decide, by decide⟩

/-- C9 (amended): the mutex is held across the whole call, the creation
network call included, on every path that attempts creation; consequently
concurrent callers for the same dataset serialize, and once one caller's
creation succeeded the next caller performs no creation attempt at all. -/
theorem ensureTemplate_lock_across_net (o o2 : TemplateOutcome) :
    lockHeldAcrossNet (ensureTemplateTrace false o) ∧
    (ensureIndexTemplate
        (ensureIndexTemplate false TemplateOutcome.success).flagAfter o2).madeCreateCall
      = false := by
  constructor
  · cases o with
    | success =>
      exact ⟨⟨0, by decide⟩, ⟨2, by decide⟩, ⟨4, by decide⟩, by decide, by decide, by decide,
        by decide, by decide⟩
    | failure m =>
      rw [show ensureTemplateTrace false (TemplateOutcome.failure m)
          = [TemplateEvent.lockAcquire, TemplateEvent.flagCheck, TemplateEvent.netCreateCall,
             TemplateEvent.lockRelease] from rfl]
      exact ⟨⟨0, by decide⟩, ⟨2, by decide⟩, ⟨3, by decide⟩, by decide, by decide, by decide,
        by decide, by decide⟩
  · rfl

/-! ### Query execution: `Search` -/

/-- One request to the engine's search endpoint, as `Search` assembles it. -/
structure SearchRequest where
  indexPattern : String
  query : BoolQuery
  size : Nat
  sort : Option String
deriving DecidableEq

/-- One hit of the engine's answer: the source document (abstracted as a
key-value list) and the owning partition identifier. -/
structure EngineHit where
  source : List (String × String)
  index : String
deriving DecidableEq

/-- The engine's answer to a search request: a transport failure, or a
response that is either an error (any error, an unknown-sort-field response
included) or a hit list. -/
inductive EngineSearchAnswer where
  | transportFailure (msg : String)
  | response (isError : Bool) (body : String) (hits : List EngineHit)
deriving DecidableEq

/-- The single request `Search` issues: the wildcard pattern over all of the
dataset's partitions, the boolean query, page size 1000, and the fixed
`createdAt:desc` sort. -/
def searchRequest (baseIndexName : String) (queryParams : List (String × FilterValue)) :
    SearchRequest :=
  ⟨baseIndexName ++ "-*", buildSearchQuery queryParams, 1000, some ("createdAt:desc")⟩

/-- Embedding of `Search`: issue the one request; a transport failure or an
engine error response is returned as an error without any retry; otherwise
every hit's source is returned with its owning partition added under
`_index`. The first component lists the engine requests the call makes. -/
def searchModel (engine : SearchRequest → EngineSearchAnswer) (baseIndexName : String)
    (queryParams : List (String × FilterValue)) :
    List SearchRequest × Except String (List (List (String × String))) :=
  match engine (searchRequest baseIndexName queryParams) with
  | .transportFailure m =>
      ([searchRequest baseIndexName queryParams], .error ("search request failed: " ++ m))
  | .response true body _ =>
      ([searchRequest baseIndexName queryParams], .error ("search request failed: " ++ body))
  | .response false _ hits =>
      ([searchRequest baseIndexName queryParams],
        .ok (hits.map (fun h => h.source ++ [(("_index"), h.index)])))

/-- An engine that answers every search request with the unknown-sort-field
error response. -/
def unknownSortEngine : SearchRequest → EngineSearchAnswer :=
  fun _ => .response true ("No mapping found for [createdAt] in order to sort on") []

/-- Counterexample to C7: when the engine answers with the unknown-sort-field
error, `Search` issues exactly one request — which carries the sort — and
fails; no sortless retry is ever issued. -/
theorem search_no_sort_fallback_counterexample :
    (searchModel unknownSortEngine ("treatments") []).1.length = 1 ∧
    (∀ r ∈ (searchModel unknownSortEngine ("treatments") []).1,
      r.sort = some ("createdAt:desc")) ∧
    (searchModel unknownSortEngine ("treatments") []).2
      = Except.error
          ("search request failed: No mapping found for [createdAt] in order to sort on") := by
  refine ⟨rfl, ?_, rfl⟩
  intro r hr
  simp only [searchModel, unknownSortEngine, List.mem_singleton] at hr
  rw [hr]
  rfl

/-- C7 (amended): `Search` performs no retry at all: exactly one engine
request is issued, always carrying the fixed `createdAt:desc` sort, and any
engine error response — the unknown-sort-field response included — or
transport failure fails the call; a non-error response yields the hits. -/
theorem search_single_request (engine : SearchRequest → EngineSearchAnswer)
    (baseIndexName : String) (queryParams : List (String × FilterValue)) :
    (searchModel engine baseIndexName queryParams).1
        = [searchRequest baseIndexName queryParams] ∧
    (∀ m, engine (searchRequest baseIndexName queryParams) = .transportFailure m →
      (searchModel engine baseIndexName queryParams).2
        = Except.error ("search request failed: " ++ m)) ∧
    (∀ body hits, engine (searchRequest baseIndexName queryParams) = .response true body hits →
      (searchModel engine baseIndexName queryParams).2
        = Except.error ("search request failed: " ++ body)) ∧
    (∀ body hits, engine (searchRequest baseIndexName queryParams) = .response false body hits →
      (searchModel engine baseIndexName queryParams).2
        = Except.ok (hits.map (fun h => h.source ++ [(("_index"), h.index)]))) := by
  refine ⟨?_, ?_, ?_, ?_⟩
  · unfold searchModel
    cases engine (searchRequest baseIndexName queryParams) with
    | transportFailure m => rfl
    | response isError body hits => cases isError <;> rfl
  · intro m hm
    unfold searchModel
    rw [hm]
  · intro body hits hm
    unfold searchModel
    rw [hm]
  · intro body hits hm
    unfold searchModel
    rw [hm]

/-- Witness for C7 (amended): at the unknown-sort-field engine the single
request fails with that error. -/
theorem search_single_request_witness :
    (unknownSortEngine (searchRequest ("treatments") [])
        = EngineSearchAnswer.response true
            ("No mapping found for [createdAt] in order to sort on") []) ∧
    (searchModel unknownSortEngine ("treatments") []).2
      = Except.error
          ("search request failed: " ++ "No mapping found for [createdAt] in order to sort on") :=
  ⟨rfl,
    (search_single_request unknownSortEngine ("treatments") []).2.2.1
      ("No mapping found for [createdAt] in order to sort on") [] rfl⟩

/-! ### Bulk ingestion: `BulkIndex` -/

/-- A record as the bulk path inspects it: the value of its first `time.Time`
field if any (`getTimeField`), and its serialized document when
`prepareDocument` succeeds (`none` models a record whose serialization
fails). -/
structure GoRecord where
  timeField : Option GoTime
  doc : Option String
deriving DecidableEq

/-- The fixed batch size of `BulkIndex`. -/
def batchSize : Nat := 1000

/-- The error a worker reports for a record whose `prepareDocument` fails. -/
def prepareErrMsg (j : Nat) : String :=
  "failed to prepare document at index " ++ toString j

/-- One action-plus-document pair of a bulk request body: the record's global
position, the target partition, the document id and the document line. -/
structure BulkLine where
  pos : Nat
  indexName : String
  docId : String
  body : String
deriving DecidableEq

/-- Embedding of a worker's buffer-building loop over its batch: each
record's partition comes from its first time field (or the call time `now`),
the document id is `baseIndexName-j` for the record's global position `j`,
and the first record whose `prepareDocument` fails makes the worker report
that error and return — abandoning the entire batch buffer, which is then
never submitted. -/
def buildBatchLines (baseIndexName : String) (now : GoTime) :
    List (Nat × GoRecord) → Except String (List BulkLine)
  | [] => .ok []
  | (j, r) :: rest =>
    match r.doc with
    | none => .error (prepareErrMsg j)
    | some body =>
      match buildBatchLines baseIndexName now rest with
      | .error e => .error e
      | .ok ls =>
          .ok (⟨j, getIndexName baseIndexName (r.timeField.getD now),
                baseIndexName ++ "-" ++ toString j, body⟩ :: ls)

/-- The engine's answer to one batch's bulk request: a transport failure, an
error response, a response whose body fails to parse, or a parsed response
carrying the `(_id, error)` pairs of the items that failed. -/
inductive BulkAnswer where
  | transportFailure (msg : String)
  | httpError (body : String)
  | parseFailure (msg : String)
  | okResponse (itemErrors : List (String × String))
deriving DecidableEq

/-- What one worker produced: the lines of the bulk request it actually
submitted (empty when the batch was abandoned before submission) and the
errors it sent on the shared error channel. -/
structure BatchResult where
  submitted : List BulkLine
  errs : List String
deriving DecidableEq

/-- Embedding of one worker: build the batch buffer — a serialization
failure abandons the batch and reports one error — otherwise submit the
buffer as one bulk request and report the whole-batch failure or the
per-item errors the engine's response surfaces. -/
def runBatch (engine : Nat → BulkAnswer) (baseIndexName : String) (now : GoTime)
    (start : Nat) (chunk : List (Nat × GoRecord)) : BatchResult :=
  match buildBatchLines baseIndexName now chunk with
  | .error e => ⟨[], [e]⟩
  | .ok ls =>
    match engine start with
    | .transportFailure m =>
        ⟨ls, ["bulk indexing failed for batch starting at " ++ toString start ++ ": " ++ m]⟩
    | .httpError b =>
        ⟨ls, ["bulk indexing request failed for batch starting at " ++ toString start
              ++ ": " ++ b]⟩
    | .parseFailure m =>
        ⟨ls, ["failed to parse bulk response for batch starting at " ++ toString start
              ++ ": " ++ m]⟩
    | .okResponse items =>
        ⟨ls, items.map (fun p => "error indexing document " ++ p.1 ++ ": " ++ p.2)⟩

/-- Number of batches for `n` records. -/
def numBatches (n : Nat) : Nat := (n + batchSize - 1) / batchSize

/-- The batch of records dispatched to worker `i`: the records at positions
`i*batchSize` through `min ((i+1)*batchSize, length) - 1`, each paired with
its global position. -/
def chunkOf (records : List GoRecord) (i : Nat) : List (Nat × GoRecord) :=
  ((records.enum).drop (i * batchSize)).take batchSize

/-- The per-worker results of a bulk call, in batch order. -/
def batchResults (engine : Nat → BulkAnswer) (baseIndexName : String) (now : GoTime)
    (records : List GoRecord) : List BatchResult :=
  (List.range (numBatches records.length)).map
    (fun i => runBatch engine baseIndexName now (i * batchSize) (chunkOf records i))

/-- All lines submitted to the engine across the batches. -/
def bulkSubmitted (engine : Nat → BulkAnswer) (baseIndexName : String) (now : GoTime)
    (records : List GoRecord) : List BulkLine :=
  ((batchResults engine baseIndexName now records).map BatchResult.submitted).flatten

/-- The drained error channel after all workers completed. The embedding
lists the errors in batch order; the goroutine interleaving only permutes
them. -/
def bulkErrs (engine : Nat → BulkAnswer) (baseIndexName : String) (now : GoTime)
    (records : List GoRecord) : List String :=
  ((batchResults engine baseIndexName now records).map BatchResult.errs).flatten

/-- The aggregate error `BulkIndex` returns when workers reported errors. -/
def combineErrors (errs : List String) : String :=
  "bulk indexing encountered errors: " ++ String.intercalate ("; ") errs

/-- Outcome of a `BulkIndex` call: the lines submitted to the engine, the
collected worker errors, the refresh requests made, and the returned error
(`none` is Go's `nil`). -/
structure BulkOutcome where
  submitted : List BulkLine
  errs : List String
  refreshCalls : List String
  result : Option String
deriving DecidableEq

/-- Embedding of `BulkIndex`: an empty call is a no-op success; a failed
`ensureIndexTemplate` (on the first record's shape) aborts before any batch;
otherwise the records are cut into `batchSize` batches, each processed by an
independent worker, and after all workers complete the error channel is
drained — when errors were collected the aggregate is returned with no
refresh, when none were the dataset's partition pattern is refreshed once
and the call returns `nil` or the refresh failure. `flag` and `tOutcome`
feed the template-manager step; `refreshOk` is the engine's answer to the
refresh request. -/
def bulkIndex (flag : Bool) (tOutcome : TemplateOutcome) (engine : Nat → BulkAnswer)
    (refreshOk : Bool) (baseIndexName : String) (now : GoTime)
    (records : List GoRecord) : BulkOutcome :=
  if records.isEmpty then ⟨[], [], [], none⟩
  else
    match (ensureIndexTemplate flag tOutcome).err with
    | some m => ⟨[], [], [], some ("failed to ensure index template: " ++ m)⟩
    | none =>
      if (bulkErrs engine baseIndexName now records).isEmpty then
        ⟨bulkSubmitted engine baseIndexName now records,
          bulkErrs engine baseIndexName now records,
          [baseIndexName ++ "-*"],
          if refreshOk then none else some ("failed to refresh index")⟩
      else
        ⟨bulkSubmitted engine baseIndexName now records,
          bulkErrs engine baseIndexName now records, [],
          some (combineErrors (bulkErrs engine baseIndexName now records))⟩

theorem length_chunkOf (records : List GoRecord) (i : Nat) :
    (chunkOf records i).length = min batchSize (records.length - i * batchSize) := by
  simp [chunkOf, List.length_take, List.length_drop, List.enum_length, Nat.min_comm]

theorem mem_chunkOf {records : List GoRecord} {i j : Nat} {r : GoRecord}
    (h : (j, r) ∈ chunkOf records i) :
    i * batchSize ≤ j ∧ j < i * batchSize + batchSize ∧
      ∃ hj : j < records.length, records.get ⟨j, hj⟩ = r := by
  obtain ⟨k, hk, hget⟩ := List.mem_iff_getElem.mp h
  have hkb : k < batchSize := by
    have := length_chunkOf records i
    omega
  have hkl : i * batchSize + k < records.length := by
    have := length_chunkOf records i
    omega
  have hchunk : (chunkOf records i)[k]
      = (i * batchSize + k, records[i * batchSize + k]) := by
    simp [chunkOf, List.getElem_take, List.getElem_drop, List.getElem_enum]
  rw [hchunk] at hget
  have hj : j = i * batchSize + k := (Prod.mk.injEq _ _ _ _ ▸ hget).1.symm
  subst hj
  have hr : records[i * batchSize + k] = r := (Prod.mk.injEq _ _ _ _ ▸ hget).2
  exact ⟨Nat.le_add_right _ _, by omega, hkl, by simpa [List.get_eq_getElem] using hr⟩

theorem chunkOf_mem {records : List GoRecord} (j : Nat) (hj : j < records.length) :
    (j, records.get ⟨j, hj⟩) ∈ chunkOf records (j / batchSize) := by
  have hB : 0 < batchSize := by decide
  have hdm := Nat.div_add_mod j batchSize
  have hcomm : j / batchSize * batchSize = batchSize * (j / batchSize) := Nat.mul_comm _ _
  have hmod : j % batchSize < batchSize := Nat.mod_lt _ hB
  apply List.mem_iff_getElem.mpr
  have hbound : j % batchSize < (chunkOf records (j / batchSize)).length := by
    rw [length_chunkOf]
    omega
  refine ⟨j % batchSize, hbound, ?_⟩
  have hjj : j / batchSize * batchSize + j % batchSize = j := by omega
  simp only [chunkOf, List.getElem_take, List.getElem_drop, List.getElem_enum]
  simp only [hjj, List.get_eq_getElem]

theorem div_lt_numBatches {j n : Nat} (h : j < n) : j / batchSize < numBatches n := by
  simp only [numBatches, batchSize]
  omega

theorem buildBatchLines_spec (base : String) (now : GoTime) :
    ∀ (chunk : List (Nat × GoRecord)) (ls : List BulkLine),
      buildBatchLines base now chunk = .ok ls →
      (∀ p ∈ chunk, (p.2).doc ≠ none) ∧
      ls.map BulkLine.pos = chunk.map Prod.fst ∧
      (∀ l ∈ ls, l.docId = base ++ "-" ++ toString l.pos) := by
  intro chunk
  induction chunk with
  | nil =>
    intro ls h
    simp only [buildBatchLines, Except.ok.injEq] at h
    subst h
    simp
  | cons p rest ih =>
    intro ls h
    obtain ⟨j, r⟩ := p
    cases hdoc : r.doc with
    | none =>
      rw [show buildBatchLines base now ((j, r) :: rest)
          = .error (prepareErrMsg j) by simp [buildBatchLines, hdoc]] at h
      simp at h
    | some body =>
      cases hrest : buildBatchLines base now rest with
      | error e =>
        rw [show buildBatchLines base now ((j, r) :: rest) = .error e by
          simp [buildBatchLines, hdoc, hrest]] at h
        simp at h
      | ok ls2 =>
        rw [show buildBatchLines base now ((j, r) :: rest)
            = .ok (⟨j, getIndexName base (r.timeField.getD now),
                    base ++ "-" ++ toString j, body⟩ :: ls2) by
          simp [buildBatchLines, hdoc, hrest]] at h
        obtain ⟨hall, hpos, hid⟩ := ih ls2 hrest
        simp only [Except.ok.injEq] at h
        subst h
        refine ⟨?_, ?_, ?_⟩
        · intro p hp
          rcases List.mem_cons.mp hp with hp | hp
          · subst hp
            simp [hdoc]
          · exact hall p hp
        · simp [hpos]
        · intro l hl
          rcases List.mem_cons.mp hl with hl | hl
          · subst hl
            rfl
          · exact hid l hl

theorem buildBatchLines_isOk (base : String) (now : GoTime) :
    ∀ (chunk : List (Nat × GoRecord)), (∀ p ∈ chunk, (p.2).doc ≠ none) →
      ∃ ls, buildBatchLines base now chunk = .ok ls := by
  intro chunk
  induction chunk with
  | nil => exact fun _ => ⟨[], rfl⟩
  | cons p rest ih =>
    intro hall
    obtain ⟨j, r⟩ := p
    cases hdoc : r.doc with
    | none => exact absurd hdoc (hall (j, r) (List.mem_cons_self _ _))
    | some body =>
      obtain ⟨ls2, hls2⟩ := ih (fun q hq => hall q (List.mem_cons_of_mem _ hq))
      exact ⟨⟨j, getIndexName base (r.timeField.getD now),
          base ++ "-" ++ toString j, body⟩ :: ls2, by simp [buildBatchLines, hdoc, hls2]⟩

theorem buildBatchLines_err (base : String) (now : GoTime) :
    ∀ (chunk : List (Nat × GoRecord)), (∃ p ∈ chunk, (p.2).doc = none) →
      ∃ j, buildBatchLines base now chunk = .error (prepareErrMsg j) ∧
        ∃ r, (j, r) ∈ chunk ∧ r.doc = none := by
  intro chunk
  induction chunk with
  | nil => rintro ⟨p, hp, _⟩; simp at hp
  | cons p rest ih =>
    rintro ⟨q, hq, hqdoc⟩
    obtain ⟨j, r⟩ := p
    cases hdoc : r.doc with
    | none =>
      exact ⟨j, by simp [buildBatchLines, hdoc],
        r, List.mem_cons_self _ _, hdoc⟩
    | some body =>
      have hqrest : q ∈ rest := by
        rcases List.mem_cons.mp hq with hq1 | hq1
        · subst hq1
          simp only at hqdoc
          rw [hqdoc] at hdoc
          cases hdoc
        · exact hq1
      obtain ⟨j2, hj2, r2, hr2, hr2doc⟩ := ih ⟨q, hqrest, hqdoc⟩
      refine ⟨j2, ?_, r2, List.mem_cons_of_mem _ hr2, hr2doc⟩
      simp [buildBatchLines, hdoc, hj2]

theorem runBatch_submitted_eq (engine : Nat → BulkAnswer) (base : String) (now : GoTime)
    (start : Nat) (chunk : List (Nat × GoRecord)) (ls : List BulkLine)
    (h : buildBatchLines base now chunk = .ok ls) :
    (runBatch engine base now start chunk).submitted = ls := by
  unfold runBatch
  rw [h]
  cases engine start <;> rfl

theorem runBatch_err_eq (engine : Nat → BulkAnswer) (base : String) (now : GoTime)
    (start : Nat) (chunk : List (Nat × GoRecord)) (e : String)
    (h : buildBatchLines base now chunk = .error e) :
    runBatch engine base now start chunk = ⟨[], [e]⟩ := by
  unfold runBatch
  rw [h]

theorem mem_bulkSubmitted {engine : Nat → BulkAnswer} {base : String} {now : GoTime}
    {records : List GoRecord} {l : BulkLine} :
    l ∈ bulkSubmitted engine base now records ↔
      ∃ i, i < numBatches records.length ∧
        l ∈ (runBatch engine base now (i * batchSize) (chunkOf records i)).submitted := by
  simp only [bulkSubmitted, batchResults, List.mem_flatten, List.mem_map, List.mem_range]
  constructor
  · rintro ⟨s, ⟨b, ⟨i, hi, rfl⟩, rfl⟩, hl⟩
    exact ⟨i, hi, hl⟩
  · rintro ⟨i, hi, hl⟩
    exact ⟨_, ⟨_, ⟨i, hi, rfl⟩, rfl⟩, hl⟩

theorem mem_bulkErrs {engine : Nat → BulkAnswer} {base : String} {now : GoTime}
    {records : List GoRecord} {e : String} :
    e ∈ bulkErrs engine base now records ↔
      ∃ i, i < numBatches records.length ∧
        e ∈ (runBatch engine base now (i * batchSize) (chunkOf records i)).errs := by
  simp only [bulkErrs, batchResults, List.mem_flatten, List.mem_map, List.mem_range]
  constructor
  · rintro ⟨s, ⟨b, ⟨i, hi, rfl⟩, rfl⟩, he⟩
    exact ⟨i, hi, he⟩
  · rintro ⟨i, hi, he⟩
    exact ⟨_, ⟨_, ⟨i, hi, rfl⟩, rfl⟩, he⟩

theorem bulkIndex_empty (flag : Bool) (tOutcome : TemplateOutcome) (engine : Nat → BulkAnswer)
    (refreshOk : Bool) (base : String) (now : GoTime) (records : List GoRecord)
    (hemp : records.isEmpty = true) :
    bulkIndex flag tOutcome engine refreshOk base now records = ⟨[], [], [], none⟩ := by
  simp [bulkIndex, hemp]

theorem bulkIndex_ensure_fail (flag : Bool) (tOutcome : TemplateOutcome)
    (engine : Nat → BulkAnswer) (refreshOk : Bool) (base : String) (now : GoTime)
    (records : List GoRecord) (hemp : records.isEmpty = false) (m : String)
    (hens : (ensureIndexTemplate flag tOutcome).err = some m) :
    bulkIndex flag tOutcome engine refreshOk base now records
      = ⟨[], [], [], some ("failed to ensure index template: " ++ m)⟩ := by
  simp [bulkIndex, hemp, hens]

theorem bulkIndex_ensure_ok (flag : Bool) (tOutcome : TemplateOutcome)
    (engine : Nat → BulkAnswer) (refreshOk : Bool) (base : String) (now : GoTime)
    (records : List GoRecord) (hemp : records.isEmpty = false)
    (hens : (ensureIndexTemplate flag tOutcome).err = none) :
    bulkIndex flag tOutcome engine refreshOk base now records
      = if (bulkErrs engine base now records).isEmpty then
          ⟨bulkSubmitted engine base now records, bulkErrs engine base now records,
            [base ++ "-*"], if refreshOk then none else some ("failed to refresh index")⟩
        else
          ⟨bulkSubmitted engine base now records, bulkErrs engine base now records, [],
            some (combineErrors (bulkErrs engine base now records))⟩ := by
  simp [bulkIndex, hemp, hens]

theorem bulkIndex_submitted_eq (flag : Bool) (tOutcome : TemplateOutcome)
    (engine : Nat → BulkAnswer) (refreshOk : Bool) (base : String) (now : GoTime)
    (records : List GoRecord) (hemp : records.isEmpty = false)
    (hens : (ensureIndexTemplate flag tOutcome).err = none) :
    (bulkIndex flag tOutcome engine refreshOk base now records).submitted
      = bulkSubmitted engine base now records := by
  rw [bulkIndex_ensure_ok flag tOutcome engine refreshOk base now records hemp hens]
  by_cases herr : (bulkErrs engine base now records).isEmpty <;> simp [herr]

theorem bulkIndex_errs_eq (flag : Bool) (tOutcome : TemplateOutcome)
    (engine : Nat → BulkAnswer) (refreshOk : Bool) (base : String) (now : GoTime)
    (records : List GoRecord) (hemp : records.isEmpty = false)
    (hens : (ensureIndexTemplate flag tOutcome).err = none) :
    (bulkIndex flag tOutcome engine refreshOk base now records).errs
      = bulkErrs engine base now records := by
  rw [bulkIndex_ensure_ok flag tOutcome engine refreshOk base now records hemp hens]
  by_cases herr : (bulkErrs engine base now records).isEmpty <;> simp [herr]

/-- C10: every document submitted by `BulkIndex` carries the id
`baseIndexName-j` where `j` is the record's global position in the input
slice — a function of the dataset name and the position only, independent of
the record's content, so two bulk calls for the same dataset assign the same
id at equal positions (and the engine's upsert semantics then overwrite). -/
theorem bulkIndex_doc_ids (flag : Bool) (tOutcome : TemplateOutcome)
    (engine : Nat → BulkAnswer) (refreshOk : Bool) (base : String) (now : GoTime)
    (records : List GoRecord) (l : BulkLine)
    (hl : l ∈ (bulkIndex flag tOutcome engine refreshOk base now records).submitted) :
    l.docId = base ++ "-" ++ toString l.pos := by
  cases hemp : records.isEmpty with
  | true =>
    rw [bulkIndex_empty flag tOutcome engine refreshOk base now records hemp] at hl
    simp at hl
  | false =>
    cases hens : (ensureIndexTemplate flag tOutcome).err with
    | some m =>
      rw [bulkIndex_ensure_fail flag tOutcome engine refreshOk base now records hemp m hens] at hl
      simp at hl
    | none =>
      rw [bulkIndex_submitted_eq flag tOutcome engine refreshOk base now records hemp hens] at hl
      obtain ⟨i, hi, hli⟩ := mem_bulkSubmitted.mp hl
      cases hb : buildBatchLines base now (chunkOf records i) with
      | error e =>
        rw [runBatch_err_eq engine base now _ _ e hb] at hli
        simp at hli
      | ok ls =>
        rw [runBatch_submitted_eq engine base now _ _ ls hb] at hli
        exact (buildBatchLines_spec base now _ ls hb).2.2 l hli

/-- C1 (amended): a record that fails serialization makes its worker abandon
that record's entire batch: no record of that batch is submitted — not even
records that serialize — while every record of every other batch whose
records all serialize is still submitted (batches fail independently), and
an error naming a failing record's position is collected. -/
theorem bulkIndex_batch_isolation (engine : Nat → BulkAnswer) (refreshOk : Bool)
    (base : String) (now : GoTime) (records : List GoRecord) (p : Nat)
    (hp : p < records.length)
    (hfail : (records.get ⟨p, hp⟩).doc = none) :
    (∀ l ∈ (bulkIndex false TemplateOutcome.success engine refreshOk base now
        records).submitted, l.pos / batchSize ≠ p / batchSize) ∧
    (∀ q, ∀ hq : q < records.length, q / batchSize ≠ p / batchSize →
      (∀ j, ∀ hj : j < records.length, j / batchSize = q / batchSize →
        (records.get ⟨j, hj⟩).doc ≠ none) →
      ∃ l ∈ (bulkIndex false TemplateOutcome.success engine refreshOk base now
          records).submitted, l.pos = q) ∧
    (∃ j, ∃ hj : j < records.length, (records.get ⟨j, hj⟩).doc = none ∧
      prepareErrMsg j ∈ (bulkIndex false TemplateOutcome.success engine refreshOk base now
        records).errs) := by
  have hemp : records.isEmpty = false := by
    cases records
    · simp at hp
    · rfl
  have hens : (ensureIndexTemplate false TemplateOutcome.success).err = none := rfl
  have hsub := bulkIndex_submitted_eq false TemplateOutcome.success engine refreshOk base now
    records hemp hens
  have herrs := bulkIndex_errs_eq false TemplateOutcome.success engine refreshOk base now
    records hemp hens
  refine ⟨?_, ?_, ?_⟩
  · intro l hl heq
    rw [hsub] at hl
    obtain ⟨i, hi, hli⟩ := mem_bulkSubmitted.mp hl
    cases hb : buildBatchLines base now (chunkOf records i) with
    | error e =>
      rw [runBatch_err_eq engine base now _ _ e hb] at hli
      simp at hli
    | ok ls =>
      rw [runBatch_submitted_eq engine base now _ _ ls hb] at hli
      obtain ⟨hall, hpos, _⟩ := buildBatchLines_spec base now _ ls hb
      have hmem : l.pos ∈ (chunkOf records i).map Prod.fst := by
        rw [← hpos]
        exact List.mem_map_of_mem _ hli
      obtain ⟨⟨j0, r0⟩, hj0, hj0eq⟩ := List.mem_map.mp hmem
      obtain ⟨hge, hlt, hj0len, hj0get⟩ := mem_chunkOf hj0
      simp only at hj0eq
      have hdiv : l.pos / batchSize = i := by
        subst hj0eq
        simp only [batchSize] at hge hlt ⊢
        omega
      have hpchunk := chunkOf_mem p hp
      rw [show p / batchSize = i by rw [← heq, hdiv]] at hpchunk
      exact hall _ hpchunk hfail
  · intro q hq hqb hok
    have hi : q / batchSize < numBatches records.length := div_lt_numBatches hq
    have hallchunk : ∀ pr ∈ chunkOf records (q / batchSize), (pr.2).doc ≠ none := by
      intro pr hpr
      obtain ⟨j, r⟩ := pr
      obtain ⟨hge, hlt, hj, hget⟩ := mem_chunkOf hpr
      have hjdiv : j / batchSize = q / batchSize := by
        simp only [batchSize] at hge hlt ⊢
        omega
      have hd := hok j hj hjdiv
      rw [hget] at hd
      exact hd
    obtain ⟨ls, hls⟩ := buildBatchLines_isOk base now _ hallchunk
    have hsubeq := runBatch_submitted_eq engine base now (q / batchSize * batchSize) _ ls hls
    have hposq : q ∈ ls.map BulkLine.pos := by
      rw [(buildBatchLines_spec base now _ ls hls).2.1]
      exact List.mem_map.mpr ⟨(q, records.get ⟨q, hq⟩), chunkOf_mem q hq, rfl⟩
    obtain ⟨l, hlls, hlq⟩ := List.mem_map.mp hposq
    refine ⟨l, ?_, hlq⟩
    rw [hsub]
    refine mem_bulkSubmitted.mpr ⟨q / batchSize, hi, ?_⟩
    rw [hsubeq]
    exact hlls
  · have hi : p / batchSize < numBatches records.length := div_lt_numBatches hp
    obtain ⟨j, hberr, r, hrmem, hrdoc⟩ := buildBatchLines_err base now
      (chunkOf records (p / batchSize))
      ⟨(p, records.get ⟨p, hp⟩), chunkOf_mem p hp, hfail⟩
    obtain ⟨hge, hlt, hj, hget⟩ := mem_chunkOf hrmem
    refine ⟨j, hj, ?_, ?_⟩
    · rw [hget]
      exact hrdoc
    · rw [herrs]
      refine mem_bulkErrs.mpr ⟨p / batchSize, hi, ?_⟩
      rw [runBatch_err_eq engine base now _ _ _ hberr]
      exact List.mem_singleton.mpr rfl

/-- C8 (amended): after all workers complete, the collected errors are
aggregated into one combined error — when errors were collected the
aggregate is returned and no refresh is performed; only when no error was
collected is the touched partition pattern refreshed, exactly once, and the
returned error is then nil exactly when the refresh succeeded (a failed
refresh after an error-free run yields the refresh error). -/
theorem bulkIndex_refresh_and_aggregate (engine : Nat → BulkAnswer) (refreshOk : Bool)
    (base : String) (now : GoTime) (records : List GoRecord)
    (hne : records.isEmpty = false) :
    ((bulkIndex false TemplateOutcome.success engine refreshOk base now records).errs ≠ [] →
      (bulkIndex false TemplateOutcome.success engine refreshOk base now
          records).refreshCalls = [] ∧
      (bulkIndex false TemplateOutcome.success engine refreshOk base now records).result
        = some (combineErrors
            (bulkIndex false TemplateOutcome.success engine refreshOk base now
              records).errs)) ∧
    ((bulkIndex false TemplateOutcome.success engine refreshOk base now records).errs = [] →
      (bulkIndex false TemplateOutcome.success engine refreshOk base now
          records).refreshCalls = [base ++ "-*"] ∧
      ((bulkIndex false TemplateOutcome.success engine refreshOk base now records).result
          = none
        ↔ refreshOk = true) ∧
      (refreshOk = false →
        (bulkIndex false TemplateOutcome.success engine refreshOk base now records).result
          = some ("failed to refresh index"))) := by
  have hens : (ensureIndexTemplate false TemplateOutcome.success).err = none := rfl
  rw [bulkIndex_ensure_ok false TemplateOutcome.success engine refreshOk base now records
    hne hens]
  by_cases herr : (bulkErrs engine base now records).isEmpty
  · rw [if_pos herr]
    have hnil : bulkErrs engine base now records = [] := by
      simpa [List.isEmpty_iff] using herr
    refine ⟨fun hcontra => absurd hnil hcontra, fun _ => ⟨rfl, ?_, ?_⟩⟩
    · cases refreshOk <;> simp
    · intro hro
      subst hro
      rfl
  · rw [if_neg herr]
    have hnn : bulkErrs engine base now records ≠ [] := by
      simpa [List.isEmpty_iff] using herr
    exact ⟨fun _ => ⟨rfl, rfl⟩, fun hcontra => absurd hcontra hnn⟩

/-- An engine that accepts every bulk request with no item errors. -/
def engineAllOk : Nat → BulkAnswer := fun _ => BulkAnswer.okResponse []

/-- A record with no time field whose serialization succeeds. -/
def okRecord : GoRecord := ⟨none, some ("srcdoc")⟩

/-- A record whose serialization fails. -/
def badRecord : GoRecord := ⟨none, none⟩

/-- Ten records of which exactly the third (position 2) fails
serialization. -/
def tenRecords : List GoRecord :=
  [okRecord, okRecord, badRecord, okRecord, okRecord,
   okRecord, okRecord, okRecord, okRecord, okRecord]

/-- Counterexample to C1: in a ten-record call whose third record fails
serialization, nothing at all is submitted — the whole (single) batch is
abandoned before the bulk request, so records 1, 2, 4–10 are not indexed
either — although the error does name the failing record. -/
theorem bulkIndex_partial_failure_counterexample :
    (bulkIndex false TemplateOutcome.success engineAllOk true ("treatments") day20240101
        tenRecords).submitted = [] ∧
    (bulkIndex false TemplateOutcome.success engineAllOk true ("treatments") day20240101
        tenRecords).errs = [prepareErrMsg 2] := by
  decide

/-- Witness for C1 (amended): in the ten-record call the failing record's
position is named by a collected error. -/
theorem bulkIndex_batch_isolation_witness :
    ((tenRecords.get ⟨2, by decide⟩).doc = none) ∧
    (∃ j, ∃ hj : j < tenRecords.length, (tenRecords.get ⟨j, hj⟩).doc = none ∧
      prepareErrMsg j ∈ (bulkIndex false TemplateOutcome.success engineAllOk true
        ("treatments") day20240101 tenRecords).errs) :=
  ⟨rfl,
    (bulkIndex_batch_isolation engineAllOk true ("treatments") day20240101 tenRecords 2
      (by decide) rfl).2.2⟩

/-- Counterexample to C8: when a worker reported an error, `BulkIndex`
returns the aggregate without performing the refresh — the refresh is not
unconditional. -/
theorem bulkIndex_refresh_skipped_counterexample :
    (bulkIndex false TemplateOutcome.success engineAllOk true ("treatments") day20240101
        [badRecord]).errs ≠ [] ∧
    (bulkIndex false TemplateOutcome.success engineAllOk true ("treatments") day20240101
        [badRecord]).refreshCalls = [] := by
  decide

/-- Witness for C8 (amended): an error-free call whose refresh fails still
refreshes the dataset's partition pattern exactly once and returns the
refresh error rather than nil. -/
theorem bulkIndex_refresh_and_aggregate_witness :
    (([okRecord] : List GoRecord).isEmpty = false ∧
      (bulkIndex false TemplateOutcome.success engineAllOk false ("treatments") day20240101
        [okRecord]).errs = []) ∧
    (bulkIndex false TemplateOutcome.success engineAllOk false ("treatments") day20240101
        [okRecord]).refreshCalls = [("treatments") ++ "-*"] ∧
    (bulkIndex false TemplateOutcome.success engineAllOk false ("treatments") day20240101
        [okRecord]).result = some ("failed to refresh index") :=
  have h := (bulkIndex_refresh_and_aggregate engineAllOk false ("treatments") day20240101
    [okRecord] rfl).2 (by decide)
  ⟨⟨rfl, by decide⟩, h.1, h.2.2 rfl⟩

/-- The single line a one-record call submits. -/
def line0 : BulkLine := ⟨0, ("treatments-2024.01.01"), ("treatments-0"), ("srcdoc")⟩

/-- Witness for C10: the one submitted line of a concrete call carries the
id `treatments-0` for position 0. -/
theorem bulkIndex_doc_ids_witness :
    (line0 ∈ (bulkIndex false TemplateOutcome.success engineAllOk true ("treatments")
        day20240101 [okRecord]).submitted) ∧
    line0.docId = ("treatments") ++ "-" ++ toString line0.pos :=
  ⟨by decide,
    bulkIndex_doc_ids false TemplateOutcome.success engineAllOk true ("treatments")
      day20240101 [okRecord] line0 (by decide)⟩

end GoSearchIndex
